import Mathlib

/-!
Verification development for the FARMM gantry-robot prototype.

The model is a shallow embedding of the two source modules:

* `main.py` — the `RobotPlaceholder` class: the task queue manager
  (`update_task_queue`), the kinematic/position refresh (`update_position`),
  and the motion slicer (`slice_motion`).
* `visualiser.py` — the module-level tick loop that pops motion commands
  from the front of the motion stack and advances the robot state.

Numeric values are modelled with exact rationals (`ℚ`); the trigonometric
part of `update_position` is treated separately over `ℝ`, since only the
kinematic-transform claim depends on actual trigonometric values.
Python's `ZeroDivisionError` raised by `/` and `/=` on a zero denominator is
modelled by returning `Except.error SliceError.zero_division` (rational
division in Lean would silently return 0, which would be unfaithful).
-/

namespace FARMM

/-- A motion command, one entry of `motion_stack`.  The source represents a
command as a 6-element list `[tool_x, tool_y, tool_z, frame_x, frame_y,
task_id]`; a tool-fire command stores the string `"Tool"` in the five
position slots, which the executor detects with a runtime type test.  We
model the two cases as a sum; element 5 (the task id) is `taskId`. -/
inductive MotionCmd where
  | move (tool_x tool_y tool_z frame_x frame_y : ℚ) (task_id : ℕ)
  | tool (task_id : ℕ)
deriving DecidableEq

/-- Element 5 of a motion-stack entry: the id of the task that produced it. -/
def MotionCmd.taskId : MotionCmd → ℕ
  | .move _ _ _ _ _ i => i
  | .tool i => i

/-- The location payload of a task: `location_type == "point"` carries one
2-D point, `location_type == "grid"` carries the two corners of the
bounding box and the `grid_points` counts `[nx, ny]`. -/
inductive Shape where
  | point (location : ℚ × ℚ)
  | grid (corner0 corner1 : ℚ × ℚ) (grid_points : ℕ × ℕ)
deriving DecidableEq

/-- A task record whose `motion_steps` key is present.  In the source a
task is a dict and `slice_motion` writes the key as its last statement;
this type covers every dict the key has been written into (`slice_motion`
itself never reads the key, so using this type for its argument loses
nothing).  `TaskDict` below models the admitted dict where the key may
still be absent, which is what `update_task_queue` actually receives when
a task has not been sliced. -/
structure Task where
  task_status : String
  shape : Shape
  task_id : ℕ
  motion_steps : ℕ
deriving DecidableEq

/-- The `RobotPlaceholder` state from `main.py`.  `true_location` and
`frame_corners` are attributes the source first creates inside
`update_position`; they are modelled as ordinary fields with arbitrary
initial content. -/
structure RobotPlaceholder where
  frame_location : ℚ × ℚ × ℚ
  tool_location : ℚ × ℚ × ℚ
  rotation : ℚ
  dimensions : ℚ × ℚ × ℚ
  task_stack : List Task
  motion_stack : List MotionCmd
  true_location : ℚ × ℚ × ℚ
  frame_corners : List (ℚ × ℚ × ℚ)
deriving DecidableEq

/-- The `task_ids_in_queue` list of `update_task_queue`: element 5 of every entry
of the motion stack. -/
def task_ids_in_queue (motion_stack : List MotionCmd) : List ℕ :=
  motion_stack.map MotionCmd.taskId

/-- The per-task body of `update_task_queue`: count the commands in the
queue tagged with this task's id and derive its status.  The source chain
is `if count == motion_steps / elif 0 < count < motion_steps /
elif count == 0 / (else: unchanged)`. -/
def refresh_task (task_ids : List ℕ) (t : Task) : Task :=
  let count := task_ids.countP (fun x => x = t.task_id)
  if count = t.motion_steps then { t with task_status := "In queue" }
  else if 0 < count ∧ count < t.motion_steps then { t with task_status := "In progress" }
  else if count = 0 then { t with task_status := "Complete" }
  else t

/-- Method `RobotPlaceholder.update_task_queue`: refresh every task's status from
the motion stack, then drop every task whose status is `"Complete"`. -/
def update_task_queue (motion_stack : List MotionCmd) (task_stack : List Task) : List Task :=
  (task_stack.map (refresh_task (task_ids_in_queue motion_stack))).filter
    (fun s => s.task_status ≠ "Complete")

/-- The `count` local of `update_task_queue`: how many commands in the
motion stack are tagged with the task's id. -/
def command_count (motion_stack : List MotionCmd) (t : Task) : ℕ :=
  (task_ids_in_queue motion_stack).countP (fun x => x = t.task_id)

/-- Failure of `update_task_queue`: the Python `KeyError` raised by
`i["motion_steps"]` when the key has not been written yet. -/
inductive QueueError where
  | key_error
deriving DecidableEq

/-- A task dict as admitted by `process_instruction_stack`: the
`motion_steps` key is absent (`none`) until `slice_motion` writes it.  This
is the type `update_task_queue` really operates on; reading the absent key
raises `KeyError`. -/
structure TaskDict where
  task_status : String
  shape : Shape
  task_id : ℕ
  motion_steps : Option ℕ
deriving DecidableEq

/-- A `Task` viewed as a dict whose `motion_steps` key is present. -/
def Task.toDict (t : Task) : TaskDict :=
  { task_status := t.task_status
    shape := t.shape
    task_id := t.task_id
    motion_steps := some t.motion_steps }

/-- The per-task body of `update_task_queue` on a raw dict: reading
`i["motion_steps"]` raises `KeyError` when the key is absent; otherwise the
status is derived exactly as in `refresh_task`. -/
def refresh_task_checked (task_ids : List ℕ) (t : TaskDict) :
    Except QueueError TaskDict :=
  match t.motion_steps with
  | none => .error .key_error
  | some ms =>
    let count := task_ids.countP (fun x => x = t.task_id)
    .ok (if count = ms then { t with task_status := "In queue" }
      else if 0 < count ∧ count < ms then { t with task_status := "In progress" }
      else if count = 0 then { t with task_status := "Complete" }
      else t)

/-- The refresh loop of `update_task_queue` over raw dicts, aborting with
the uncaught `KeyError` of the first task whose key is absent. -/
def refresh_tasks_checked (task_ids : List ℕ) :
    List TaskDict → Except QueueError (List TaskDict)
  | [] => .ok []
  | t :: ts =>
    match refresh_task_checked task_ids t with
    | .error e => .error e
    | .ok t2 =>
      match refresh_tasks_checked task_ids ts with
      | .error e => .error e
      | .ok ts2 => .ok (t2 :: ts2)

/-- Method `RobotPlaceholder.update_task_queue` over raw dicts: refresh
every task (raising `KeyError` on any task whose `motion_steps` key is
absent, so the pass never reaches the removal step), then drop the
`"Complete"` tasks. -/
def update_task_queue_checked (motion_stack : List MotionCmd)
    (task_stack : List TaskDict) : Except QueueError (List TaskDict) :=
  match refresh_tasks_checked (task_ids_in_queue motion_stack) task_stack with
  | .error e => .error e
  | .ok l => .ok (l.filter (fun s => s.task_status ≠ "Complete"))

/-- Failure of `slice_motion`.  `zero_division` models the uncaught Python
`ZeroDivisionError` (spacing computed with `grid_points` containing a zero,
or the centroid divided by an empty reachable-point list).  `tool_tail`
models the degenerate case where the last motion-stack entry is a tool-fire
command: the source would then copy the string `"Tool"` into the numeric
slots of the new commands, which cannot be represented here and which
crashes the executor later. -/
inductive SliceError where
  | zero_division
  | tool_tail
deriving DecidableEq

/-- The `position` local of `slice_motion`: the robot's current location if
the motion stack is empty, otherwise the five positional values of the last
stack entry. -/
def tail_position (r : RobotPlaceholder) : Except SliceError (ℚ × ℚ × ℚ × ℚ × ℚ) :=
  match r.motion_stack.getLast? with
  | none => .ok (r.tool_location.1, r.tool_location.2.1, r.tool_location.2.2,
      r.frame_location.1, r.frame_location.2.1)
  | some (MotionCmd.move a b c d e _) => .ok (a, b, c, d, e)
  | some (MotionCmd.tool _) => .error .tool_tail

/-- The grid branch of `slice_motion`: evenly spaced sample points starting
at the first bounding-box corner, outer loop over x, inner loop over y. -/
def grid_locations (bounding_box : (ℚ × ℚ) × (ℚ × ℚ)) (grid_points : ℕ × ℕ) :
    List (ℚ × ℚ) :=
  let x_spacing := |bounding_box.2.1 - bounding_box.1.1| / grid_points.1
  let y_spacing := |bounding_box.2.2 - bounding_box.1.2| / grid_points.2
  (List.range grid_points.1).flatMap fun (x : ℕ) =>
    (List.range grid_points.2).map fun (y : ℕ) =>
      (bounding_box.1.1 + (x : ℚ) * x_spacing, bounding_box.1.2 + (y : ℚ) * y_spacing)

/-- The `task_locations` list of `slice_motion`: one point for a point task; for a
grid task the sampled grid, after the two spacing divisions (which raise
`ZeroDivisionError` when a grid count is 0). -/
def task_points (task : Task) : Except SliceError (List (ℚ × ℚ)) :=
  match task.shape with
  | .point location => .ok [location]
  | .grid c0 c1 grid_points =>
      if grid_points.1 = 0 ∨ grid_points.2 = 0 then .error .zero_division
      else .ok (grid_locations (c0, c1) grid_points)

/-- The reachability filter of `slice_motion`: a point is dropped exactly
when its y coordinate is strictly below `frame_location[1]` or strictly
above `frame_location[1] + dimensions[1]`. -/
def reachable (frame_y depth : ℚ) (p : ℚ × ℚ) : Bool :=
  !(decide (p.2 < frame_y) || decide (p.2 > frame_y + depth))

/-- The four commands `slice_motion` appends per reachable point `i`: move
the tool over the point at raised height, lower it to the ground, fire the
tool, raise it back up.  `centre_x` is the adjusted centroid, `frame_y` the
`position[4]` value copied from the motion-stack tail, `dims_z` the raise
height `dimensions[2]`. -/
def point_commands (centre_x frame_y dims_z : ℚ) (task_id : ℕ) (i : ℚ × ℚ) :
    List MotionCmd :=
  [MotionCmd.move (i.1 - centre_x) i.2 dims_z centre_x frame_y task_id,
    MotionCmd.move (i.1 - centre_x) i.2 0 centre_x frame_y task_id,
    MotionCmd.tool task_id,
    MotionCmd.move (i.1 - centre_x) i.2 dims_z centre_x frame_y task_id]

/-- The pure content of `slice_motion`: the list of commands it appends to
the motion stack (in order), paired with the final `steps` counter.  The
source interleaves the appends with the computation; the commands and the
counter are assembled here in the same order, and `slice_events` below
records the source's side-effect order. -/
def slice_commands (r : RobotPlaceholder) (task : Task) :
    Except SliceError (List MotionCmd × ℕ) :=
  match tail_position r with
  | .error e => .error e
  | .ok position =>
    let neutral := MotionCmd.move position.1 0 r.dimensions.2.2
      position.2.2.2.1 position.2.2.2.2 task.task_id
    match task_points task with
    | .error e => .error e
    | .ok task_locations =>
      let valid_task_locations :=
        task_locations.filter (reachable r.frame_location.2.1 r.dimensions.2.1)
      if valid_task_locations.length = 0 then .error .zero_division
      else
        let centre_x := (valid_task_locations.map Prod.fst).sum /
            (valid_task_locations.length : ℚ) - r.dimensions.1 / 2
        let centre_move := MotionCmd.move r.tool_location.1 0 r.dimensions.2.2
          centre_x r.frame_location.2.1 task.task_id
        let point_moves := valid_task_locations.flatMap
          (point_commands centre_x position.2.2.2.2 r.dimensions.2.2 task.task_id)
        .ok ([neutral, centre_move] ++ point_moves, 2 + 4 * valid_task_locations.length)

/-- Method `RobotPlaceholder.slice_motion`: append the sliced commands to the
motion stack and write the final `steps` counter into the task's
`motion_steps` key (the source's last statement). -/
def slice_motion (r : RobotPlaceholder) (task : Task) :
    Except SliceError (RobotPlaceholder × Task) :=
  match slice_commands r task with
  | .error e => .error e
  | .ok (cmds, steps) =>
      .ok ({ r with motion_stack := r.motion_stack ++ cmds },
           { task with motion_steps := steps })

/-- One side effect of `slice_motion`, in source order: an append to the
shared motion stack, or the final write of the `steps` counter into the
task's `motion_steps` key. -/
inductive SliceEvent where
  | append (c : MotionCmd)
  | set_motion_steps (n : ℕ)
deriving DecidableEq

/-- Whether a slice event is an append. -/
def SliceEvent.isAppend : SliceEvent → Bool
  | .append _ => true
  | .set_motion_steps _ => false

/-- Holds iff every `set_motion_steps` event in the trace occurs before
every `append` event: once the first append has happened, nothing but
appends may follow. -/
def set_before_appends (events : List SliceEvent) : Bool :=
  (events.dropWhile (fun e => !e.isAppend)).all SliceEvent.isAppend

/-- The side-effect trace of `slice_motion`, in the order the source
performs them: the neutral move is appended first (before the task's
points are even resolved), then the frame-centring move, then four
commands per reachable point, and only then — as the very last statement —
is `motion_steps` written.  On the `ZeroDivisionError` paths the neutral
move has already been appended when the exception is raised; on the
`tool_tail` path no faithful numeric trace exists (see `SliceError`). -/
def slice_events (r : RobotPlaceholder) (task : Task) : List SliceEvent :=
  match slice_commands r task with
  | .ok (cmds, steps) =>
      cmds.map SliceEvent.append ++ [SliceEvent.set_motion_steps steps]
  | .error .tool_tail => []
  | .error .zero_division =>
      match tail_position r with
      | .error _ => []
      | .ok position =>
          [SliceEvent.append (MotionCmd.move position.1 0 r.dimensions.2.2
            position.2.2.2.1 position.2.2.2.2 task.task_id)]

/-- Method `RobotPlaceholder.update_position`, with the two trigonometric
evaluations `np.cos(np.deg2rad(rotation))` and `np.sin(np.deg2rad(rotation))`
passed in as function arguments `rcos` and `rsin` so that the state can stay
in exact rationals; the real-valued kinematic formula itself is verified
separately over `ℝ` (`true_location`).  The method first refreshes the task
queue, then rebuilds the derived `true_location` and `frame_corners` from
the (unmodified) primary fields. -/
def update_position (rcos rsin : ℚ → ℚ) (r : RobotPlaceholder) : RobotPlaceholder :=
  let r1 := { r with task_stack := update_task_queue r.motion_stack r.task_stack }
  let c := rcos r1.rotation
  let s := rsin r1.rotation
  let fl := r1.frame_location
  let tl := r1.tool_location
  let d := r1.dimensions
  { r1 with
    true_location :=
      (fl.1 + tl.1 * c - tl.2.1 * s, fl.2.1 + tl.2.1 * c + tl.1 * s, tl.2.2),
    frame_corners := [
      (fl.1, fl.2.1, fl.2.2),
      (fl.1 - d.2.1 * s, fl.2.1 + d.2.1 * c, fl.2.2),
      (fl.1 + d.1 * c, fl.2.1 + d.1 * s, fl.2.2),
      (fl.1 + d.1 * c - d.2.1 * s, fl.2.1 + d.1 * s + d.2.1 * c, fl.2.2)] }

/-- The conversion `np.deg2rad` over the reals. -/
noncomputable def deg2rad (x : ℝ) : ℝ := x * Real.pi / 180

/-- The world tool point computed by `update_position` (lines 57–67 of
`main.py`), over the reals with actual trigonometry. -/
noncomputable def true_location (frame_location tool_location : ℝ × ℝ × ℝ)
    (rotation : ℝ) : ℝ × ℝ × ℝ :=
  (frame_location.1 + tool_location.1 * Real.cos (deg2rad rotation)
      - tool_location.2.1 * Real.sin (deg2rad rotation),
   frame_location.2.1 + tool_location.2.1 * Real.cos (deg2rad rotation)
      + tool_location.1 * Real.sin (deg2rad rotation),
   tool_location.2.2)

/-- Modelled from the spec: counter-clockwise rotation of a plane vector by
an angle, expressed through multiplication by `exp (θ i)` on the complex
plane (the source's own comment says the rotation is "[s]ame as complex
plane").  Used only to state the kinematic-transform claim. -/
noncomputable def rotate_ccw (θ : ℝ) (v : ℝ × ℝ) : ℝ × ℝ :=
  ((((v.1 : ℂ) + (v.2 : ℂ) * Complex.I) * Complex.exp (θ * Complex.I)).re,
   (((v.1 : ℂ) + (v.2 : ℂ) * Complex.I) * Complex.exp (θ * Complex.I)).im)

/-- The state of the `visualiser.py` tick loop while the simulation is
running: the robot's mutable location fields, the shared motion stack, and
the module-level executor variables.  `previous_location` is the pair
`[frame, tool]`; `next_location = none` models the empty list `[]`. -/
structure ExecState where
  motion_stack : List MotionCmd
  frame_location : ℚ × ℚ × ℚ
  tool_location : ℚ × ℚ × ℚ
  previous_location : (ℚ × ℚ × ℚ) × (ℚ × ℚ × ℚ)
  next_location : Option ((ℚ × ℚ × ℚ) × (ℚ × ℚ × ℚ))
  steps_required : ℚ
  steps_done : ℕ
  tool_active : Bool
deriving DecidableEq

/-- One component update of the move branch:
`updated = previous + percent * (next − previous)`, applied to each of the
three coordinates of one location triple. -/
def interp3 (percent : ℚ) (previous target : ℚ × ℚ × ℚ) : ℚ × ℚ × ℚ :=
  (previous.1 + percent * (target.1 - previous.1),
   previous.2.1 + percent * (target.2.1 - previous.2.1),
   previous.2.2 + percent * (target.2.2 - previous.2.2))

/-- The "Move the robot" branch of the tick loop.  The source's
`updated_location = list(previous_location)` is a shallow copy: the inner
lists are shared, so the in-place `+=` also rewrites `previous_location`
(and the robot's own location lists, which alias the same objects).  This
is modelled by assigning the interpolated values to `frame_location`,
`tool_location` and `previous_location` together.  On completion
(`percent >= 1`) `previous_location` is rebound to `next_location`,
`next_location` is cleared, the counters reset, and the finished command is
popped from the front of the motion stack. -/
def move_tick (s : ExecState) : ExecState :=
  match s.next_location with
  | none => s
  | some nl =>
      let percent : ℚ := ((s.steps_done : ℚ) + 1) / s.steps_required
      let updated_frame := interp3 percent s.previous_location.1 nl.1
      let updated_tool := interp3 percent s.previous_location.2 nl.2
      if percent ≥ 1 then
        { s with
          frame_location := updated_frame
          tool_location := updated_tool
          previous_location := nl
          next_location := none
          steps_required := 0
          steps_done := 0
          motion_stack := s.motion_stack.tail }
      else
        { s with
          frame_location := updated_frame
          tool_location := updated_tool
          previous_location := (updated_frame, updated_tool)
          steps_done := s.steps_done + 1 }

/-- The "Fire the tool" branch of the tick loop: bump `steps_done`; once it
reaches `steps_required` the tool is deactivated, the counters reset, and
the tool-fire command popped from the front of the motion stack. -/
def tool_tick (s : ExecState) : ExecState :=
  if ((s.steps_done : ℚ) + 1) ≥ s.steps_required then
    { s with
      tool_active := false
      steps_required := 0
      steps_done := 0
      motion_stack := s.motion_stack.tail }
  else
    { s with steps_done := s.steps_done + 1 }

/-- The `max` of a three-element Python list. -/
def max3 (a b c : ℚ) : ℚ := max a (max b c)

/-- The "Select the next point" block of the tick loop (a plain `if`, so it
runs in the same iteration as a just-completed command).  A command whose
first element is a string is a tool fire: 5 ticks, no distance computation.
Otherwise the target is `[[frame_x, frame_y, 0], tool]` and the duration is
the bottleneck group's largest per-axis displacement divided by that
group's speed (tool 0.1, frame 0.2 distance-units per tick). -/
def pop_command (s : ExecState) : ExecState :=
  match s.motion_stack with
  | [] => s
  | next_point :: _ =>
      if s.next_location = none ∧ s.tool_active = false then
        match next_point with
        | .tool _ => { s with tool_active := true, steps_required := 5 }
        | .move a b c d e _ =>
            let nl := ((d, e, 0), (a, b, c))
            let max_frame_distance := max3 |s.previous_location.1.1 - d|
              |s.previous_location.1.2.1 - e| |s.previous_location.1.2.2 - 0|
            let max_tool_distance := max3 |s.previous_location.2.1 - a|
              |s.previous_location.2.2.1 - b| |s.previous_location.2.2.2 - c|
            if max_tool_distance > max_frame_distance then
              { s with
                next_location := some nl
                steps_required := max_tool_distance / (1/10) }
            else
              { s with
                next_location := some nl
                steps_required := max_frame_distance / (2/10) }
      else s

/-- One iteration of the tick loop with the simulation running and no GUI
event: the `elif` chain advances an in-flight move, or an active tool fire;
afterwards the separate `if` block may set up the next command. -/
def tick (s : ExecState) : ExecState :=
  pop_command (
    if s.next_location ≠ none ∧ s.tool_active = false then move_tick s
    else if s.tool_active = true then tool_tick s
    else s)

/-! Concrete instances used by witnesses and counterexamples.  `robot_w`
and the point task mirror the initialisation in `visualiser.py`
(`RobotPlaceholder([0,0,0],[0.2,0.2,0.1],0)`) and the first placeholder
task of `main.py` (the watering task at `[0.5, 0.2]`). -/

/-- The robot as initialised in `visualiser.py`, before any slicing. -/
def robot_w : RobotPlaceholder :=
  { frame_location := (0, 0, 0)
    tool_location := (1/5, 1/5, 1/10)
    rotation := 0
    dimensions := (2/5, 1, 3/5)
    task_stack := []
    motion_stack := []
    true_location := (0, 0, 0)
    frame_corners := [] }

/-- The watering task of `main.py` — a point task at `(0.5, 0.2)` — as a
raw dict: its `motion_steps` key is absent until sliced. -/
def watering_dict_w : TaskDict :=
  { task_status := "Awaiting slicing"
    shape := Shape.point (1/2, 1/5)
    task_id := 0
    motion_steps := none }

/-- The watering task of `main.py` as a `Task`, the form `slice_motion` is
exercised on (it never reads `motion_steps`, so the placeholder value 0
carried here is immaterial to slicing). -/
def task_point_w : Task :=
  { task_status := "Awaiting slicing"
    shape := Shape.point (1/2, 1/5)
    task_id := 0
    motion_steps := 0 }

/-- The value of `slice_motion robot_w task_point_w`, written out. -/
def result_w : RobotPlaceholder × Task :=
  ({ robot_w with motion_stack := [MotionCmd.move (1/5) 0 (3/5) 0 0 0,
      MotionCmd.move (1/5) 0 (3/5) (3/10) 0 0,
      MotionCmd.move (1/5) (1/5) (3/5) (3/10) 0 0,
      MotionCmd.move (1/5) (1/5) 0 (3/10) 0 0,
      MotionCmd.tool 0,
      MotionCmd.move (1/5) (1/5) (3/5) (3/10) 0 0] },
   { task_point_w with motion_steps := 6 })

/-- A point task every point of which lies below the frame's travel band:
`y = -1/2 < 0 = frame_location[1]`. -/
def task_far_w : Task :=
  { task_status := "Awaiting slicing"
    shape := Shape.point (1/2, -1/2)
    task_id := 2
    motion_steps := 0 }

/-- A point task whose point lies exactly on the lower band boundary
(`y = 0 = frame_location[1]`). -/
def task_boundary_w : Task :=
  { task_status := "Awaiting slicing"
    shape := Shape.point (1/2, 0)
    task_id := 3
    motion_steps := 0 }

/-- A 1×1 grid task inside the band (first corner `(6/5, 1/10)`). -/
def task_grid_w : Task :=
  { task_status := "Awaiting slicing"
    shape := Shape.grid (6/5, 1/10) (3/2, 1) (1, 1)
    task_id := 1
    motion_steps := 0 }

/-- An idle executor (`next_location == []`, tool inactive) over a given
motion stack, previous location pair and counters. -/
def idle_state (ms : List MotionCmd) (fl tl : ℚ × ℚ × ℚ)
    (pl : (ℚ × ℚ × ℚ) × (ℚ × ℚ × ℚ)) (sr : ℚ) (sd : ℕ) : ExecState :=
  { motion_stack := ms
    frame_location := fl
    tool_location := tl
    previous_location := pl
    next_location := none
    steps_required := sr
    steps_done := sd
    tool_active := false }

/-- An idle executor whose motion stack holds a single move with tool
displacement `(0.3, 0, 0)` and zero frame displacement — the spec's
executor-determinism scenario. -/
def move_scenario (f1 f2 t1 t2 t3 : ℚ) (tid : ℕ) : ExecState :=
  { motion_stack := [MotionCmd.move (t1 + 3/10) t2 t3 f1 f2 tid]
    frame_location := (f1, f2, 0)
    tool_location := (t1, t2, t3)
    previous_location := ((f1, f2, 0), (t1, t2, t3))
    next_location := none
    steps_required := 0
    steps_done := 0
    tool_active := false }

/-- An executor with a move in flight: tool start `(0, 0, 0)`, target
`(0.3, 0, 0)`, 3 ticks required, none done yet. -/
def mid_move_w : ExecState :=
  { motion_stack := [MotionCmd.move (3/10) 0 0 0 0 0]
    frame_location := (0, 0, 0)
    tool_location := (0, 0, 0)
    previous_location := ((0, 0, 0), (0, 0, 0))
    next_location := some ((0, 0, 0), (3/10, 0, 0))
    steps_required := 3
    steps_done := 0
    tool_active := false }

/-- The same move after one tick: tool x `1/10`, `steps_done = 1`; the
aliased `previous_location` holds the same interpolated position. -/
def mid1_move_w : ExecState :=
  { motion_stack := [MotionCmd.move (3/10) 0 0 0 0 0]
    frame_location := (0, 0, 0)
    tool_location := (1/10, 0, 0)
    previous_location := ((0, 0, 0), (1/10, 0, 0))
    next_location := some ((0, 0, 0), (3/10, 0, 0))
    steps_required := 3
    steps_done := 1
    tool_active := false }

/-- The same move after two ticks: the aliased `previous_location` now
holds the position reached after tick 2 (tool x `7/30`), with one tick to
go. -/
def late_move_w : ExecState :=
  { motion_stack := [MotionCmd.move (3/10) 0 0 0 0 0]
    frame_location := (0, 0, 0)
    tool_location := (7/30, 0, 0)
    previous_location := ((0, 0, 0), (7/30, 0, 0))
    next_location := some ((0, 0, 0), (3/10, 0, 0))
    steps_required := 3
    steps_done := 2
    tool_active := false }

/-- The value of `slice_motion robot_w task_grid_w`, written out. -/
def result_grid_w : RobotPlaceholder × Task :=
  ({ robot_w with motion_stack := [MotionCmd.move (1/5) 0 (3/5) 0 0 1,
      MotionCmd.move (1/5) 0 (3/5) 1 0 1,
      MotionCmd.move (1/5) (1/10) (3/5) 1 0 1,
      MotionCmd.move (1/5) (1/10) 0 1 0 1,
      MotionCmd.tool 1,
      MotionCmd.move (1/5) (1/10) (3/5) 1 0 1] },
   { task_grid_w with motion_steps := 6 })

/-! Theorems. -/

/-- Refreshing only rewrites the status: id, shape and step count are
untouched. -/
theorem refresh_task_fields (ids : List ℕ) (t : Task) :
    (refresh_task ids t).task_id = t.task_id ∧
    (refresh_task ids t).motion_steps = t.motion_steps ∧
    (refresh_task ids t).shape = t.shape := by
  simp only [refresh_task]
  split_ifs <;> exact ⟨rfl, rfl, rfl⟩

/-- Refreshing a task twice against the same motion stack is the same as
refreshing it once: the branch taken depends only on the (unchanged) count
and step fields, and each branch writes a fixed status. -/
theorem refresh_task_idem (ids : List ℕ) (t : Task) :
    refresh_task ids (refresh_task ids t) = refresh_task ids t := by
  obtain ⟨hid, hms, hshape⟩ := refresh_task_fields ids t
  conv_lhs => rw [refresh_task]
  simp only [hid, hms, hshape]
  by_cases h1 : List.countP (fun x => decide (x = t.task_id)) ids = t.motion_steps
  · simp only [if_pos h1]
    conv_rhs => rw [refresh_task]
    simp only [if_pos h1]
  · simp only [if_neg h1]
    by_cases h2 : 0 < List.countP (fun x => decide (x = t.task_id)) ids ∧
        List.countP (fun x => decide (x = t.task_id)) ids < t.motion_steps
    · simp only [if_pos h2]
      conv_rhs => rw [refresh_task]
      simp only [if_neg h1, if_pos h2]
    · simp only [if_neg h2]
      by_cases h3 : List.countP (fun x => decide (x = t.task_id)) ids = 0
      · simp only [if_pos h3]
        conv_rhs => rw [refresh_task]
        simp only [if_neg h1, if_neg h2, if_pos h3]
      · simp only [if_neg h3]

/-- Every task surviving `update_task_queue` has a status other than
`"Complete"`. -/
theorem mem_update_task_queue_status (motion_stack : List MotionCmd)
    (task_stack : List Task) (u : Task)
    (hu : u ∈ update_task_queue motion_stack task_stack) :
    u.task_status ≠ "Complete" := by
  unfold update_task_queue at hu
  have := List.of_mem_filter hu
  simpa using this

/-- C7: `refresh_statuses` is idempotent — for every motion stack and task
stack, running `update_task_queue` twice with no intervening command
consumption produces the same active set, with the same status on every
remaining task, as running it once. -/
theorem C7_refresh_statuses_idempotent (motion_stack : List MotionCmd)
    (task_stack : List Task) :
    update_task_queue motion_stack (update_task_queue motion_stack task_stack) =
      update_task_queue motion_stack task_stack := by
  conv_lhs => rw [update_task_queue]
  have hmap : (update_task_queue motion_stack task_stack).map
      (refresh_task (task_ids_in_queue motion_stack)) =
      update_task_queue motion_stack task_stack := by
    calc (update_task_queue motion_stack task_stack).map
          (refresh_task (task_ids_in_queue motion_stack)) =
        (update_task_queue motion_stack task_stack).map id := by
          apply List.map_congr_left
          intro x hx
          unfold update_task_queue at hx
          have hx2 : x ∈ task_stack.map (refresh_task (task_ids_in_queue motion_stack)) :=
            List.mem_of_mem_filter hx
          obtain ⟨y, -, rfl⟩ := List.mem_map.mp hx2
          exact refresh_task_idem _ y
      _ = update_task_queue motion_stack task_stack := List.map_id _
  rw [hmap]
  rw [List.filter_eq_self]
  intro a ha
  have := mem_update_task_queue_status motion_stack task_stack a ha
  simpa using this

/-- Refreshing a dict whose `motion_steps` key is present agrees with the
total-model `refresh_task` through `Task.toDict`. -/
theorem refresh_task_checked_toDict (ids : List ℕ) (t : Task) :
    refresh_task_checked ids t.toDict = .ok (refresh_task ids t).toDict := by
  simp only [refresh_task_checked, refresh_task, Task.toDict]
  split_ifs <;> rfl

/-- The checked refresh loop over key-present dicts never raises and agrees
with mapping the total-model refresh. -/
theorem refresh_tasks_checked_map (ids : List ℕ) (ts : List Task) :
    refresh_tasks_checked ids (ts.map Task.toDict) =
      .ok ((ts.map (refresh_task ids)).map Task.toDict) := by
  induction ts with
  | nil => rfl
  | cons t ts ih =>
    simp only [List.map_cons, refresh_tasks_checked, refresh_task_checked_toDict, ih]

/-- C1: the code violates the claim's unsliced-task clause by crashing: on
a task stack holding the admitted (not yet sliced) watering dict, whose
`motion_steps` key is absent, `update_task_queue` raises `KeyError` when it
reads `i["motion_steps"]`, so the task is neither left with status
`"Awaiting slicing"` nor kept in a surviving active set — the refresh pass
aborts before the removal step.  The divergence is exactly the missing key:
on any stack of dicts whose key is present the checked pass succeeds and
coincides with the total model `update_task_queue`, which implements the
claim's count-based InQueue / InProgress / Complete-and-removed rules. -/
theorem C1_unsliced_key_error :
    update_task_queue_checked [] [watering_dict_w] = .error .key_error ∧
    watering_dict_w.task_status = "Awaiting slicing" ∧
    watering_dict_w.motion_steps = none ∧
    ∀ (motion_stack : List MotionCmd) (task_stack : List Task),
      update_task_queue_checked motion_stack (task_stack.map Task.toDict) =
        .ok ((update_task_queue motion_stack task_stack).map Task.toDict) := by
  refine ⟨rfl, rfl, rfl, ?_⟩
  intro motion_stack task_stack
  simp only [update_task_queue_checked, update_task_queue,
    refresh_tasks_checked_map]
  congr 1
  induction task_stack.map (refresh_task (task_ids_in_queue motion_stack)) with
  | nil => rfl
  | cons t ts ih =>
    simp only [ne_eq, decide_not] at ih
    simp only [List.map_cons, List.filter_cons]
    by_cases h : t.task_status = "Complete"
    · simp [Task.toDict, h, ih]
    · simp [Task.toDict, h, ih]

/-- C10: `update_position` performs the queue refresh as a side effect and
rebuilds only the derived geometry: the primary fields (frame and tool
location, rotation, dimensions) and the motion stack are untouched, the
task stack becomes exactly `update_task_queue` of the pre-call state, and
no task with status `"Complete"` survives in the active set. -/
theorem C10_update_position_effects (rcos rsin : ℚ → ℚ) (r : RobotPlaceholder) :
    (update_position rcos rsin r).frame_location = r.frame_location ∧
    (update_position rcos rsin r).tool_location = r.tool_location ∧
    (update_position rcos rsin r).rotation = r.rotation ∧
    (update_position rcos rsin r).dimensions = r.dimensions ∧
    (update_position rcos rsin r).motion_stack = r.motion_stack ∧
    (update_position rcos rsin r).task_stack =
      update_task_queue r.motion_stack r.task_stack ∧
    ((update_position rcos rsin r).task_stack.all
      (fun t => t.task_status != "Complete")) = true := by
  refine ⟨rfl, rfl, rfl, rfl, rfl, rfl, ?_⟩
  rw [List.all_eq_true]
  intro t ht
  have : t ∈ update_task_queue r.motion_stack r.task_stack := ht
  have hne := mem_update_task_queue_status r.motion_stack r.task_stack t this
  simpa using hne

/-- Evaluation of `List.range 1`, for 1×1 grids. -/
theorem range_one_eq : List.range 1 = [0] := rfl

/-- The length of a `flatMap` whose blocks all have the same length. -/
theorem length_flatMap_const {α β : Type} (l : List α) (f : α → List β) (c : ℕ)
    (h : ∀ a, (f a).length = c) : (l.flatMap f).length = l.length * c := by
  induction l with
  | nil => simp
  | cons a t ih => simp [h, ih, Nat.succ_mul, Nat.add_comm]

/-- The length of a row-major double loop over two ranges. -/
theorem length_flatMap_map {α : Type} (n m : ℕ) (g : ℕ → ℕ → α) :
    ((List.range n).flatMap fun x => (List.range m).map (g x)).length = n * m := by
  have h : ∀ x : ℕ, ((List.range m).map (g x)).length = m := by
    intro x
    rw [List.length_map, List.length_range]
  rw [length_flatMap_const _ _ m h, List.length_range]

/-- The grid branch generates exactly `nx * ny` points. -/
theorem grid_locations_length (bounding_box : (ℚ × ℚ) × (ℚ × ℚ))
    (grid_points : ℕ × ℕ) :
    (grid_locations bounding_box grid_points).length =
      grid_points.1 * grid_points.2 := by
  simp only [grid_locations]
  rw [length_flatMap_map]

/-- Characterisation of a successful `slice_commands`: the `steps` counter
is `2 + 4 ×` the number of reachable points, exactly `steps` commands are
produced, and every one of them carries the task's id. -/
theorem slice_commands_spec (r : RobotPlaceholder) (task : Task)
    (cmds : List MotionCmd) (steps : ℕ)
    (h : slice_commands r task = .ok (cmds, steps)) :
    ∃ pts, task_points task = .ok pts ∧
      steps = 2 + 4 * (pts.filter
        (reachable r.frame_location.2.1 r.dimensions.2.1)).length ∧
      cmds.length = steps ∧
      ∀ c ∈ cmds, c.taskId = task.task_id := by
  unfold slice_commands at h
  cases htail : tail_position r with
  | error e => rw [htail] at h; exact absurd h (by simp)
  | ok position =>
    rw [htail] at h
    cases hpts : task_points task with
    | error e => rw [hpts] at h; exact absurd h (by simp)
    | ok pts =>
      rw [hpts] at h
      simp only at h
      by_cases hlen : (pts.filter
          (reachable r.frame_location.2.1 r.dimensions.2.1)).length = 0
      · rw [if_pos hlen] at h; exact absurd h (by simp)
      · rw [if_neg hlen] at h
        refine ⟨pts, rfl, ?_⟩
        obtain ⟨hcmds, hsteps⟩ : cmds = _ ∧ steps = _ := by
          have := h
          simp only [Except.ok.injEq, Prod.mk.injEq] at this
          exact ⟨this.1.symm, this.2.symm⟩
        subst hcmds hsteps
        refine ⟨rfl, ?_, ?_⟩
        · rw [List.length_append,
            length_flatMap_const _ (point_commands _ _ _ _) 4 (fun a => rfl)]
          simp only [List.length_cons, List.length_nil]
          omega
        · intro c hc
          simp only [List.mem_append, List.mem_cons, List.not_mem_nil, or_false,
            List.mem_flatMap] at hc
          rcases hc with (rfl | rfl) | ⟨i, -, hmem⟩
          · rfl
          · rfl
          · simp only [point_commands, List.mem_cons, List.not_mem_nil,
              or_false] at hmem
            rcases hmem with rfl | rfl | rfl | rfl <;> rfl

/-- A successful `slice_motion` in terms of `slice_commands`. -/
theorem slice_motion_ok (r : RobotPlaceholder) (task : Task)
    (r2 : RobotPlaceholder) (t2 : Task)
    (h : slice_motion r task = .ok (r2, t2)) :
    ∃ cmds steps, slice_commands r task = .ok (cmds, steps) ∧
      r2 = { r with motion_stack := r.motion_stack ++ cmds } ∧
      t2 = { task with motion_steps := steps } := by
  unfold slice_motion at h
  cases hsc : slice_commands r task with
  | error e => rw [hsc] at h; exact absurd h (by simp)
  | ok p =>
    obtain ⟨cmds, steps⟩ := p
    rw [hsc] at h
    simp only [Except.ok.injEq, Prod.mk.injEq] at h
    exact ⟨cmds, steps, rfl, h.1.symm, h.2.symm⟩

/-- C2: on a task none of whose points are reachable (the point task at
`(1/2, -1/2)`, below the band `[0, 1]`), `slice_motion` fails with the
modelled `ZeroDivisionError` — the source divides the centroid accumulator
by `len(valid_task_locations) == 0` with no guard and no distinct
"no reachable points" error.  Moreover the neutral move tagged with the
task's id has already been appended to the shared motion stack when the
exception is raised (the event trace of the failing call is that single
append), so the failed task leaves an orphan command behind and the
uncaught exception aborts the caller's slicing loop. -/
theorem C2_unreachable_task_zero_division :
    slice_motion robot_w task_far_w = .error .zero_division ∧
    slice_events robot_w task_far_w =
      [SliceEvent.append (MotionCmd.move (1/5) 0 (3/5) 0 0 2)] := by
  constructor
  · norm_num [slice_motion, slice_commands, tail_position, task_points,
      reachable, robot_w, task_far_w]
  · norm_num [slice_events, slice_commands, tail_position, task_points,
      reachable, robot_w, task_far_w]

/-- C3: for every successful slice, `motion_steps` is set to
`2 + 4 × (number of reachable points)` and exactly that many commands, all
tagged with the task's id, are appended to the motion stack; in particular
a point task whose point is reachable yields 6 commands, and a grid task
all of whose generated points are reachable yields `2 + 4·nx·ny`. -/
theorem C3_step_count :
    (∀ (r : RobotPlaceholder) (task : Task) (r2 : RobotPlaceholder) (t2 : Task),
      slice_motion r task = .ok (r2, t2) →
      ∃ pts, task_points task = .ok pts ∧
        t2.motion_steps = 2 + 4 * (pts.filter
          (reachable r.frame_location.2.1 r.dimensions.2.1)).length ∧
        ∃ cmds, r2.motion_stack = r.motion_stack ++ cmds ∧
          cmds.length = t2.motion_steps ∧
          ∀ c ∈ cmds, c.taskId = task.task_id) ∧
    (∀ (r : RobotPlaceholder) (task : Task) (p : ℚ × ℚ)
      (r2 : RobotPlaceholder) (t2 : Task),
      task.shape = Shape.point p →
      reachable r.frame_location.2.1 r.dimensions.2.1 p = true →
      slice_motion r task = .ok (r2, t2) →
      t2.motion_steps = 6) ∧
    (∀ (r : RobotPlaceholder) (task : Task) (c0 c1 : ℚ × ℚ) (nx ny : ℕ)
      (r2 : RobotPlaceholder) (t2 : Task),
      task.shape = Shape.grid c0 c1 (nx, ny) →
      (∀ p ∈ grid_locations (c0, c1) (nx, ny),
        reachable r.frame_location.2.1 r.dimensions.2.1 p = true) →
      slice_motion r task = .ok (r2, t2) →
      t2.motion_steps = 2 + 4 * (nx * ny)) := by
  refine ⟨?_, ?_, ?_⟩
  · intro r task r2 t2 h
    obtain ⟨cmds, steps, hsc, hr2, ht2⟩ := slice_motion_ok r task r2 t2 h
    obtain ⟨pts, hpts, hsteps, hlen, htag⟩ := slice_commands_spec r task cmds steps hsc
    subst hr2 ht2
    exact ⟨pts, hpts, hsteps, cmds, rfl, hlen, htag⟩
  · intro r task p r2 t2 hshape hreach h
    obtain ⟨cmds, steps, hsc, hr2, ht2⟩ := slice_motion_ok r task r2 t2 h
    obtain ⟨pts, hpts, hsteps, -, -⟩ := slice_commands_spec r task cmds steps hsc
    have hpts2 : pts = [p] := by
      unfold task_points at hpts
      rw [hshape] at hpts
      simpa using hpts.symm
    subst hpts2 ht2
    simp only [hsteps]
    simp [List.filter, hreach]
  · intro r task c0 c1 nx ny r2 t2 hshape hreach h
    obtain ⟨cmds, steps, hsc, hr2, ht2⟩ := slice_motion_ok r task r2 t2 h
    obtain ⟨pts, hpts, hsteps, -, -⟩ := slice_commands_spec r task cmds steps hsc
    have hpts2 : pts = grid_locations (c0, c1) (nx, ny) := by
      unfold task_points at hpts
      rw [hshape] at hpts
      by_cases hz : nx = 0 ∨ ny = 0
      · simp [hz] at hpts
      · simpa [hz] using hpts.symm
    subst hpts2 ht2
    simp only [hsteps]
    rw [List.filter_eq_self.mpr ?reachAll, grid_locations_length]
    case reachAll =>
      intro a ha
      exact hreach a ha

/-- C3 witness: the watering point task and a 1×1 grid task, both inside
the band, slice to exactly 6 commands with `motion_steps = 6 = 2 + 4·1·1`. -/
theorem C3_step_count_witness :
    slice_motion robot_w task_point_w = Except.ok result_w ∧
    result_w.2.motion_steps = 6 ∧
    slice_motion robot_w task_grid_w = Except.ok result_grid_w ∧
    result_grid_w.2.motion_steps = 2 + 4 * (1 * 1) := by
  have hp : slice_motion robot_w task_point_w = Except.ok result_w := by
    norm_num [slice_motion, slice_commands, tail_position, task_points,
      reachable, point_commands, robot_w, task_point_w, result_w]
  have hg : slice_motion robot_w task_grid_w = Except.ok result_grid_w := by
    norm_num [slice_motion, slice_commands, tail_position, task_points,
      grid_locations, reachable, point_commands, robot_w, task_grid_w,
      result_grid_w, range_one_eq, abs_of_nonneg]
  refine ⟨hp, ?_, hg, ?_⟩
  · exact C3_step_count.2.1 robot_w task_point_w (1/2, 1/5) result_w.1
      result_w.2 rfl (by norm_num [reachable, robot_w]) hp
  · have h6 := C3_step_count.2.2 robot_w task_grid_w (6/5, 1/10) (3/2, 1) 1 1
      result_grid_w.1 result_grid_w.2 rfl ?_ hg
    · simpa using h6
    · intro p hp2
      have : p = ((6/5 : ℚ), (1/10 : ℚ)) := by
        revert hp2
        norm_num [grid_locations, range_one_eq, abs_of_nonneg]
      rw [this]
      norm_num [reachable, robot_w]

/-- C4 counterexample: on the concrete point task, the event trace of
`slice_motion` does not put the `motion_steps` write before the appends —
the very first event is an append and the write comes last, so the
"all writes precede all appends" predicate evaluates to `false`. -/
theorem C4_counterexample :
    set_before_appends (slice_events robot_w task_point_w) = false := by
  norm_num [set_before_appends, slice_events, slice_commands, tail_position,
    task_points, reachable, point_commands, robot_w, task_point_w,
    SliceEvent.isAppend, List.dropWhile, List.all]

/-- C4 (amended): the order is the reverse of the claimed one — a
successful `slice_motion` first appends all of the task's commands (a
non-empty list) to the shared motion stack and writes `steps` into the
task's `motion_steps` as its final action. -/
theorem C4_write_order_amended (r : RobotPlaceholder) (task : Task)
    (r2 : RobotPlaceholder) (t2 : Task)
    (h : slice_motion r task = .ok (r2, t2)) :
    ∃ cmds, slice_events r task =
        cmds.map SliceEvent.append ++ [SliceEvent.set_motion_steps t2.motion_steps] ∧
      r2.motion_stack = r.motion_stack ++ cmds ∧ cmds ≠ [] := by
  obtain ⟨cmds, steps, hsc, hr2, ht2⟩ := slice_motion_ok r task r2 t2 h
  obtain ⟨pts, -, hsteps, hlen, -⟩ := slice_commands_spec r task cmds steps hsc
  subst hr2 ht2
  refine ⟨cmds, ?_, rfl, ?_⟩
  · unfold slice_events
    rw [hsc]
  · intro hnil
    subst hnil
    simp only [List.length_nil] at hlen
    omega

/-- C4 witness: `C4_write_order_amended` applied to the concrete point
task. -/
theorem C4_write_order_witness :
    slice_motion robot_w task_point_w = Except.ok result_w ∧
    ∃ cmds, slice_events robot_w task_point_w =
        cmds.map SliceEvent.append ++
          [SliceEvent.set_motion_steps result_w.2.motion_steps] ∧
      result_w.1.motion_stack = robot_w.motion_stack ++ cmds ∧ cmds ≠ [] := by
  have hp : slice_motion robot_w task_point_w = Except.ok result_w := by
    norm_num [slice_motion, slice_commands, tail_position, task_points,
      reachable, point_commands, robot_w, task_point_w, result_w]
  exact ⟨hp, C4_write_order_amended robot_w task_point_w result_w.1 result_w.2 hp⟩

/-- C9: a point whose y coordinate equals either band boundary is kept by
the reachability filter (the source drops only strictly-outside points),
and a point task at such a boundary point slices successfully to 6
commands. -/
theorem C9_boundary_reachable (frame_y depth : ℚ) (p : ℚ × ℚ)
    (hd : 0 ≤ depth) (hb : p.2 = frame_y ∨ p.2 = frame_y + depth) :
    reachable frame_y depth p = true ∧
    ∀ (r : RobotPlaceholder) (task : Task),
      r.frame_location.2.1 = frame_y → r.dimensions.2.1 = depth →
      r.motion_stack = [] → task.shape = Shape.point p →
      ∃ (r2 : RobotPlaceholder) (t2 : Task),
        slice_motion r task = .ok (r2, t2) ∧
        t2.motion_steps = 6 ∧ r2.motion_stack.length = 6 := by
  have hreach : reachable frame_y depth p = true := by
    have h1 : ¬ (p.2 < frame_y) := by
      rcases hb with h | h <;> rw [h] <;> [exact lt_irrefl _; linarith]
    have h2 : ¬ (p.2 > frame_y + depth) := by
      rcases hb with h | h <;> rw [h] <;> [linarith; exact lt_irrefl _]
    simp [reachable, h1, h2]
  refine ⟨hreach, ?_⟩
  intro r task hfy hdep hstack hshape
  have hfilter : [p].filter (reachable r.frame_location.2.1 r.dimensions.2.1)
      = [p] := by
    rw [hfy, hdep]
    simp [List.filter, hreach]
  have hex : ∃ out, slice_commands r task = .ok out ∧ out.2 = 6 ∧
      out.1.length = 6 := by
    unfold slice_commands tail_position task_points
    rw [hstack, hshape]
    simp only [List.getLast?_nil, hfilter]
    norm_num [point_commands]
  obtain ⟨⟨cmds, steps⟩, hsc, hsteps, hcmds⟩ := hex
  refine ⟨{ r with motion_stack := r.motion_stack ++ cmds },
    { task with motion_steps := steps }, ?_, hsteps, ?_⟩
  · unfold slice_motion
    rw [hsc]
  · rw [hstack]
    simpa using hcmds

/-- C9 witness: the boundary task at `(1/2, 0)` — exactly on the lower
band edge of `robot_w` — is reachable and slices to 6 commands. -/
theorem C9_boundary_reachable_witness :
    reachable 0 1 (1/2, 0) = true ∧
    ∃ (r2 : RobotPlaceholder) (t2 : Task),
      slice_motion robot_w task_boundary_w = .ok (r2, t2) ∧
      t2.motion_steps = 6 ∧ r2.motion_stack.length = 6 := by
  have h := C9_boundary_reachable 0 1 (1/2, 0) (by norm_num) (Or.inl rfl)
  exact ⟨h.1, h.2 robot_w task_boundary_w rfl rfl rfl rfl⟩

/-- C5 counterexample: two ticks into the 3-tick move of `mid_move_w`
(start tool x 0, target 3/10), the tool x coordinate is `7/30` — not the
`start + (2/3) × (target − start) = 1/5` the claim's formula requires.  The
shallow copy `updated_location = list(previous_location)` shares the inner
lists, so each tick interpolates from the previous tick's position instead
of the move's start. -/
theorem C5_counterexample :
    (tick (tick mid_move_w)).tool_location.1 = 7/30 ∧
    (0 : ℚ) + (2/3) * (3/10 - 0) = 1/5 ∧ (7/30 : ℚ) ≠ (1/5 : ℚ) := by
  have h1 : tick mid_move_w = mid1_move_w := by
    have hc1 : mid_move_w.next_location ≠ none ∧ mid_move_w.tool_active = false := by
      simp [mid_move_w]
    rw [tick, if_pos hc1]
    have hmt : move_tick mid_move_w = mid1_move_w := by
      rw [mid_move_w, move_tick, mid1_move_w]
      norm_num [interp3]
    rw [hmt, mid1_move_w, pop_command]
    norm_num
    intro hF
    exact Option.noConfusion hF
  have h2 : tick mid1_move_w = late_move_w := by
    have hc1 : mid1_move_w.next_location ≠ none ∧ mid1_move_w.tool_active = false := by
      simp [mid1_move_w]
    rw [tick, if_pos hc1]
    have hmt : move_tick mid1_move_w = late_move_w := by
      rw [mid1_move_w, move_tick, late_move_w]
      norm_num [interp3]
    rw [hmt, late_move_w, pop_command]
    norm_num
    intro hF
    exact Option.noConfusion hF
  refine ⟨?_, by norm_num, by norm_num⟩
  rw [h1, h2]
  norm_num [late_move_w]

/-- C5 (amended): while a move is in flight, each tick advances every
coordinate (three tool axes and three frame axes) by
`previous + percent × (target − previous)` where `previous` is the position
after the preceding tick (aliased with the robot's own location lists), not
the move's start; when `percent ≥ 1` the command is popped, the counters
reset and — with no further command pending — the executor is back to Idle,
the position being exactly the target when `percent = 1` (in particular
whenever the required-tick count is a whole number). -/
theorem C5_move_interpolation_amended (s : ExecState)
    (nl : (ℚ × ℚ × ℚ) × (ℚ × ℚ × ℚ))
    (h1 : s.next_location = some nl) (h2 : s.tool_active = false) :
    (((s.steps_done : ℚ) + 1) / s.steps_required < 1 →
      tick s = { s with
        frame_location := interp3 (((s.steps_done : ℚ) + 1) / s.steps_required)
          s.previous_location.1 nl.1
        tool_location := interp3 (((s.steps_done : ℚ) + 1) / s.steps_required)
          s.previous_location.2 nl.2
        previous_location := (interp3 (((s.steps_done : ℚ) + 1) / s.steps_required)
            s.previous_location.1 nl.1,
          interp3 (((s.steps_done : ℚ) + 1) / s.steps_required)
            s.previous_location.2 nl.2)
        steps_done := s.steps_done + 1 }) ∧
    (1 ≤ ((s.steps_done : ℚ) + 1) / s.steps_required → s.motion_stack.tail = [] →
      tick s = { s with
        frame_location := interp3 (((s.steps_done : ℚ) + 1) / s.steps_required)
          s.previous_location.1 nl.1
        tool_location := interp3 (((s.steps_done : ℚ) + 1) / s.steps_required)
          s.previous_location.2 nl.2
        previous_location := nl
        next_location := none
        steps_required := 0
        steps_done := 0
        motion_stack := [] }) ∧
    (((s.steps_done : ℚ) + 1) / s.steps_required = 1 →
      (tick s).frame_location = nl.1 ∧ (tick s).tool_location = nl.2) := by
  obtain ⟨ms, fl, tl, pl, nlo, sr, sd, ta⟩ := s
  simp only at h1 h2
  subst h1 h2
  refine ⟨?_, ?_, ?_⟩
  · intro hlt
    have hnot : ¬ (((sd : ℚ) + 1) / sr ≥ 1) := not_le.mpr hlt
    simp only [tick, move_tick, pop_command]
    simp [hnot]
    cases ms <;> rfl
  · intro hge htail
    simp only at htail
    simp only [tick, move_tick, pop_command]
    simp only [ge_iff_le, if_pos hge]
    simp [htail]
  · intro heq
    have hge : (1 : ℚ) ≤ ((sd : ℚ) + 1) / sr := le_of_eq heq.symm
    simp only [tick, move_tick, pop_command]
    simp only [ge_iff_le, if_pos hge]
    have hf : interp3 (((sd : ℚ) + 1) / sr) pl.1 nl.1 = nl.1 := by
      rw [heq]
      simp [interp3]
    have ht : interp3 (((sd : ℚ) + 1) / sr) pl.2 nl.2 = nl.2 := by
      rw [heq]
      simp [interp3]
    refine ⟨?_, ?_⟩ <;>
      rcases htail : ms.tail with - | ⟨c, rest⟩
    · simp [htail, hf, ht]
    · cases c <;> simp [htail, hf, ht] <;> split <;> simp [hf, ht]
    · simp [htail, hf, ht]
    · cases c <;> simp [htail, hf, ht] <;> split <;> simp [hf, ht]

/-- C5 witness: `C5_move_interpolation_amended` at tick 1 of `mid_move_w`
(`percent = 1/3 < 1`: the interpolated record) and at tick 3 of
`late_move_w` (`percent = 1`: exact snap to the target and return to
Idle). -/
theorem C5_move_interpolation_witness :
    ((mid_move_w.steps_done : ℚ) + 1) / mid_move_w.steps_required < 1 ∧
    tick mid_move_w = { mid_move_w with
      tool_location := (1/10, 0, 0)
      previous_location := ((0, 0, 0), (1/10, 0, 0))
      steps_done := 1 } ∧
    ((late_move_w.steps_done : ℚ) + 1) / late_move_w.steps_required = 1 ∧
    (tick late_move_w).frame_location = (0, 0, 0) ∧
    (tick late_move_w).tool_location = (3/10, 0, 0) := by
  have h1 := C5_move_interpolation_amended mid_move_w ((0, 0, 0), (3/10, 0, 0))
    rfl rfl
  have h2 := C5_move_interpolation_amended late_move_w ((0, 0, 0), (3/10, 0, 0))
    rfl rfl
  have hlt : ((mid_move_w.steps_done : ℚ) + 1) / mid_move_w.steps_required < 1 := by
    norm_num [mid_move_w]
  have heq : ((late_move_w.steps_done : ℚ) + 1) / late_move_w.steps_required = 1 := by
    norm_num [late_move_w]
  refine ⟨hlt, ?_, heq, (h2.2.2 heq).1, (h2.2.2 heq).2⟩
  rw [h1.1 hlt]
  norm_num [mid_move_w, interp3]

/-- Tick 1 of the determinism scenario: the idle executor pops the move;
tool displacement 3/10 beats frame displacement 0, so 3 ticks are
assigned. -/
theorem scenario_tick1 (f1 f2 t1 t2 t3 : ℚ) (tid : ℕ) :
    tick (move_scenario f1 f2 t1 t2 t3 tid) =
      { move_scenario f1 f2 t1 t2 t3 tid with
        next_location := some ((f1, f2, 0), (t1 + 3/10, t2, t3))
        steps_required := 3 } := by
  rw [tick, if_neg (by simp [move_scenario]), if_neg (by simp [move_scenario])]
  rw [move_scenario, pop_command]
  norm_num
  rw [show max3 |(3:ℚ)/10| 0 0 = 3/10 by norm_num [max3, max_def, abs_of_nonneg],
      show max3 (0:ℚ) 0 0 = 0 by norm_num [max3, max_def]]
  norm_num

/-- Tick 2 of the determinism scenario: `percent = 1/3`, tool x advances to
`t1 + 1/10`. -/
theorem scenario_tick2 (f1 f2 t1 t2 t3 : ℚ) (tid : ℕ) :
    tick ({ move_scenario f1 f2 t1 t2 t3 tid with
        next_location := some ((f1, f2, 0), (t1 + 3/10, t2, t3))
        steps_required := 3 }) =
      { move_scenario f1 f2 t1 t2 t3 tid with
        next_location := some ((f1, f2, 0), (t1 + 3/10, t2, t3))
        steps_required := 3
        tool_location := (t1 + 1/10, t2, t3)
        previous_location := ((f1, f2, 0), (t1 + 1/10, t2, t3))
        steps_done := 1 } := by
  rw [tick, if_pos (by simp [move_scenario])]
  rw [move_scenario, move_tick]
  norm_num [interp3]
  rw [pop_command]
  norm_num
  intro hF
  exact Option.noConfusion hF

/-- Tick 3 of the determinism scenario: `percent = 2/3`, tool x advances
from the previous tick's position to `t1 + 7/30` (not the claimed
`t1 + 1/5`). -/
theorem scenario_tick3 (f1 f2 t1 t2 t3 : ℚ) (tid : ℕ) :
    tick ({ move_scenario f1 f2 t1 t2 t3 tid with
        next_location := some ((f1, f2, 0), (t1 + 3/10, t2, t3))
        steps_required := 3
        tool_location := (t1 + 1/10, t2, t3)
        previous_location := ((f1, f2, 0), (t1 + 1/10, t2, t3))
        steps_done := 1 }) =
      { move_scenario f1 f2 t1 t2 t3 tid with
        next_location := some ((f1, f2, 0), (t1 + 3/10, t2, t3))
        steps_required := 3
        tool_location := (t1 + 7/30, t2, t3)
        previous_location := ((f1, f2, 0), (t1 + 7/30, t2, t3))
        steps_done := 2 } := by
  rw [tick, if_pos (by simp [move_scenario])]
  rw [move_scenario, move_tick]
  norm_num [interp3]
  rw [pop_command]
  norm_num
  rw [if_neg (by simp)]
  simp only [ExecState.mk.injEq, Prod.mk.injEq]
  norm_num
  ring

/-- Tick 4 of the determinism scenario: `percent = 1`, the tool x
coordinate lands exactly on the target, the move is popped and the executor
is idle again. -/
theorem scenario_tick4 (f1 f2 t1 t2 t3 : ℚ) (tid : ℕ) :
    tick ({ move_scenario f1 f2 t1 t2 t3 tid with
        next_location := some ((f1, f2, 0), (t1 + 3/10, t2, t3))
        steps_required := 3
        tool_location := (t1 + 7/30, t2, t3)
        previous_location := ((f1, f2, 0), (t1 + 7/30, t2, t3))
        steps_done := 2 }) =
      { move_scenario f1 f2 t1 t2 t3 tid with
        motion_stack := []
        tool_location := (t1 + 3/10, t2, t3)
        previous_location := ((f1, f2, 0), (t1 + 3/10, t2, t3)) } := by
  rw [tick, if_pos (by simp [move_scenario])]
  rw [move_scenario, move_tick]
  norm_num [interp3]
  rw [pop_command]
  simp only [ExecState.mk.injEq, Prod.mk.injEq]
  norm_num
  ring

/-- C6: a popped ToolFire command is always assigned 5 ticks regardless of
any position state; a popped Move command is assigned
`max_tool_distance / 0.1` ticks when the tool group dominates strictly and
`max_frame_distance / 0.2` otherwise, each maximum taken over that group's
per-axis absolute displacements; and the determinism scenario — a Move with
tool displacement `(0.3, 0, 0)` and zero frame displacement — is assigned
exactly 3 ticks, after which the tool x coordinate equals the target
exactly and the executor is back to Idle. -/
theorem C6_command_durations :
    (∀ (ms : List MotionCmd) (fl tl : ℚ × ℚ × ℚ)
      (pl : (ℚ × ℚ × ℚ) × (ℚ × ℚ × ℚ)) (sr : ℚ) (sd : ℕ) (tid : ℕ),
      (tick (idle_state (MotionCmd.tool tid :: ms) fl tl pl sr sd)).steps_required
          = 5 ∧
      (tick (idle_state (MotionCmd.tool tid :: ms) fl tl pl sr sd)).tool_active
          = true) ∧
    (∀ (ms : List MotionCmd) (fl tl : ℚ × ℚ × ℚ)
      (pl : (ℚ × ℚ × ℚ) × (ℚ × ℚ × ℚ)) (sr : ℚ) (sd : ℕ) (tid : ℕ)
      (a b c d e : ℚ),
      (tick (idle_state (MotionCmd.move a b c d e tid :: ms) fl tl pl sr sd)).steps_required =
        (if max3 |pl.2.1 - a| |pl.2.2.1 - b| |pl.2.2.2 - c| >
            max3 |pl.1.1 - d| |pl.1.2.1 - e| |pl.1.2.2 - 0|
         then max3 |pl.2.1 - a| |pl.2.2.1 - b| |pl.2.2.2 - c| / (1/10)
         else max3 |pl.1.1 - d| |pl.1.2.1 - e| |pl.1.2.2 - 0| / (1/5))) ∧
    (∀ (f1 f2 t1 t2 t3 : ℚ) (tid : ℕ),
      (tick (move_scenario f1 f2 t1 t2 t3 tid)).steps_required = 3 ∧
      (tick (tick (tick (tick (move_scenario f1 f2 t1 t2 t3 tid))))).tool_location
          = (t1 + 3/10, t2, t3) ∧
      (tick (tick (tick (tick (move_scenario f1 f2 t1 t2 t3 tid))))).frame_location
          = (f1, f2, 0) ∧
      (tick (tick (tick (tick (move_scenario f1 f2 t1 t2 t3 tid))))).next_location
          = none ∧
      (tick (tick (tick (tick (move_scenario f1 f2 t1 t2 t3 tid))))).tool_active
          = false) := by
  refine ⟨?_, ?_, ?_⟩
  · intro ms fl tl pl sr sd tid
    exact ⟨rfl, rfl⟩
  · intro ms fl tl pl sr sd tid a b c d e
    simp only [tick, idle_state, move_tick, tool_tick, pop_command]
    norm_num
    split <;> rfl
  · intro f1 f2 t1 t2 t3 tid
    refine ⟨by rw [scenario_tick1], ?_, ?_, ?_, ?_⟩ <;>
      · rw [scenario_tick1, scenario_tick2, scenario_tick3, scenario_tick4]
        try rfl

/-- C8: the world tool point of `update_position` equals the frame position
plus the counter-clockwise rotation (multiplication by `exp (θ i)` on the
complex plane) of the tool offset's (x, y) components through the rotation
angle in radians, with the z coordinate passed through unchanged; the
formula is total in all of its real arguments. -/
theorem C8_world_tool_point (frame_location tool_location : ℝ × ℝ × ℝ)
    (rotation : ℝ) :
    true_location frame_location tool_location rotation =
      (frame_location.1 +
        (rotate_ccw (deg2rad rotation) (tool_location.1, tool_location.2.1)).1,
       frame_location.2.1 +
        (rotate_ccw (deg2rad rotation) (tool_location.1, tool_location.2.1)).2,
       tool_location.2.2) := by
  unfold true_location rotate_ccw
  rw [Complex.exp_mul_I]
  simp only [Complex.add_re, Complex.add_im, Complex.mul_re, Complex.mul_im,
    Complex.ofReal_re, Complex.ofReal_im, Complex.I_re, Complex.I_im,
    Complex.cos_ofReal_re, Complex.cos_ofReal_im, Complex.sin_ofReal_re,
    Complex.sin_ofReal_im, Prod.mk.injEq]
  refine ⟨by ring, by ring, trivial⟩

end FARMM
